import Mathlib

/-!
# Verification of the Paraglider Traffic Emulator (`paraglider_emulator.py`)

This file shallowly embeds the parts of the emulator that the checked
properties talk about:

* the per-tick flight physics `update_paraglider_physics` (a state machine
  over phases GROUND … LANDED), embedded over `ℝ` with every random draw of
  a tick made an explicit input (a `Draws` record), mirroring the source
  mutation-by-mutation;
* the transport selection logic of `create_paraglider` / `get_pool_client` /
  `run` (dedicated MQTT client vs. shared pool);
* the recursive 400-retry of `register_device`;
* the `RateLimiter.wait_if_needed` timestamp-window algorithm, modelled as a
  trace over rational timestamps with idealized timing (sleeps take exactly
  the requested time plus a nonnegative scheduling slack, and the lock
  serializes calls);
* HMAC-SHA256 (executable, over byte lists, bytes as `ℕ`) together with the
  registration-token and canonical-telemetry-signature constructions;
* the canonical JSON serialization of the GPS payload built by
  `send_gps_update` (fixed sorted key order, `separators=(',', ':')`);
* the per-device worker loop `simulate_paraglider` (physics → publish →
  battery check).

Python floats are modelled as real numbers; `math.cos`/`math.sin`/`math.atan2`
as their exact real counterparts; Python's `%` on floats as
`x - m * ⌊x / m⌋`; `random.uniform(a, b)` / `random.random()` draws as
explicit real inputs constrained by hypotheses to their documented ranges.
-/

namespace Emulator

open Real

/-- Python `x % m` on floats (sign of the divisor): `x - m * ⌊x / m⌋`. -/
noncomputable def pymod (x m : ℝ) : ℝ := x - m * ⌊x / m⌋

/-- `math.radians`. -/
noncomputable def radians (d : ℝ) : ℝ := d * π / 180

/-- `math.degrees`. -/
noncomputable def degrees (r : ℝ) : ℝ := r * 180 / π

/-- `math.atan2 y x` (four-quadrant arctangent, `atan2 0 0 = 0`). -/
noncomputable def atan2 (y x : ℝ) : ℝ :=
  if 0 < x then Real.arctan (y / x)
  else if x < 0 then
    (if 0 ≤ y then Real.arctan (y / x) + π else Real.arctan (y / x) - π)
  else
    (if 0 < y then π / 2 else if y < 0 then -(π / 2) else 0)

/-- `FlightPhase` enum of the emulator. -/
inductive FlightPhase
  | GROUND
  | TAKEOFF
  | CLIMBING
  | GLIDING
  | THERMALING
  | LANDING
  | LANDED
  deriving DecidableEq, Repr

/-- A flying site entry of `FLYING_SITES` (name omitted: it is only printed). -/
structure Site where
  lat : ℝ
  lon : ℝ
  alt : ℝ
  landAlt : ℝ

/-- `Thermal` dataclass: a rising air column. -/
structure Thermal where
  lat : ℝ
  lon : ℝ
  radius : ℝ
  strength : ℝ
  topAltitude : ℝ

/-- The kinematic portion of the `Paraglider` dataclass (identity, credential
and MQTT-client fields live in the transport/crypto sections below; they are
not read or written by `update_paraglider_physics`). -/
structure Paraglider where
  site : Site
  lat : ℝ
  lon : ℝ
  altitude : ℝ
  speed : ℝ
  heading : ℝ
  vario : ℝ
  phase : FlightPhase
  battery : ℝ
  thermal : Option Thermal
  targetLanding : Option (ℝ × ℝ)
  active : Bool
  flightTime : ℤ

/-- One tick's random draws and clock readings, one field per `random.*` call
site of `update_paraglider_physics` (plus the elapsed-minutes clock reading).
`thermalWindDrift` and `thermalWindDir` are drawn by the source (lines 538-539)
but never used. -/
structure Draws where
  batteryDrain : ℝ      -- uniform(0.01, 0.03)
  flightTime : ℤ        -- int(elapsed seconds / 60)
  takeoffRoll : ℝ       -- random()
  takeoffHeading : ℝ    -- uniform(0, 360)
  taxiRoll : ℝ          -- random()
  taxiSpeed : ℝ         -- uniform(2, 5)
  taxiHeadingDelta : ℝ  -- uniform(-45, 45)
  takeoffSpeedInc : ℝ   -- uniform(1, 3)
  takeoffVario : ℝ      -- uniform(1.5, 3.0)
  takeoffHeadingJitter : ℝ -- uniform(-10, 10)
  climbSpeed : ℝ        -- uniform(35, 45)
  climbVarioDecay : ℝ   -- uniform(0.1, 0.4)
  climbHeadingDelta : ℝ -- uniform(-20, 20)
  climbGiveUpRoll : ℝ   -- random()
  turnRate : ℝ          -- uniform(12, 18)
  thermalRadius : ℝ     -- uniform(30, 70)
  thermalWindDrift : ℝ  -- uniform(0, 2) / 3.6  (unused by the source)
  thermalWindDir : ℝ    -- uniform(0, 360)      (unused by the source)
  thermalClimbMult : ℝ  -- uniform(0.6, 1.2)
  thermalSpeed : ℝ      -- uniform(30, 40)
  thermalExitRoll : ℝ   -- random()
  thermalExitSpeed : ℝ  -- uniform(40, 50)
  glideVario : ℝ        -- uniform(-1.8, -0.5)
  glideSpeed : ℝ        -- uniform(35, 50)
  glideHeadingDelta : ℝ -- uniform(-15, 15)
  glideLiftRoll : ℝ     -- random()
  glideLiftVario : ℝ    -- uniform(0, 1.0)
  landAngle : ℝ         -- uniform(0, 2π)
  landDistance : ℝ      -- uniform(100, 1000)
  landingJitter : ℝ     -- uniform(-5, 5)
  landingDecel : ℝ      -- uniform(1, 3)
  landingSinkInc : ℝ    -- uniform(0.1, 0.3)
  landedAgainRoll : ℝ   -- random()
  landedLatJitter : ℝ   -- uniform(-0.001, 0.001)
  landedLonJitter : ℝ   -- uniform(-0.001, 0.001)
  landedHeading : ℝ     -- uniform(0, 360)
  landedPackRoll : ℝ    -- random()
  packLatJitter : ℝ     -- uniform(-0.00001, 0.00001)
  packLonJitter : ℝ     -- uniform(-0.00001, 0.00001)
  windSpeed : ℝ         -- uniform(0, 10)
  windDir : ℝ           -- uniform(0, 360)

/-- `calculate_distance`: haversine distance in metres. -/
noncomputable def calculateDistance (lat1 lon1 lat2 lon2 : ℝ) : ℝ :=
  let R : ℝ := 6371000
  let lat1Rad := radians lat1
  let lat2Rad := radians lat2
  let deltaLat := radians (lat2 - lat1)
  let deltaLon := radians (lon2 - lon1)
  let a := Real.sin (deltaLat / 2) ^ 2 +
    Real.cos lat1Rad * Real.cos lat2Rad * Real.sin (deltaLon / 2) ^ 2
  let c := 2 * atan2 (Real.sqrt a) (Real.sqrt (1 - a))
  R * c

/-- `calculate_bearing`: forward bearing in degrees, normalized to [0, 360). -/
noncomputable def calculateBearing (lat1 lon1 lat2 lon2 : ℝ) : ℝ :=
  let lat1Rad := radians lat1
  let lat2Rad := radians lat2
  let deltaLon := radians (lon2 - lon1)
  let x := Real.sin deltaLon * Real.cos lat2Rad
  let y := Real.cos lat1Rad * Real.sin lat2Rad -
    Real.sin lat1Rad * Real.cos lat2Rad * Real.cos deltaLon
  let bearing := degrees (atan2 x y)
  pymod (bearing + 360) 360

open scoped Classical in
/-- `smooth_turn`: turn toward a target heading, at most `maxTurn` per tick. -/
noncomputable def smoothTurn (currentHeading targetHeading maxTurn : ℝ) : ℝ :=
  let diff := targetHeading - currentHeading
  let diff := if diff > 180 then diff - 360 else if diff < -180 then diff + 360 else diff
  let diff := if |diff| > maxTurn then (if diff > 0 then maxTurn else -maxTurn) else diff
  pymod (currentHeading + diff) 360

open scoped Classical in
/-- The thermal scan of the CLIMBING branch: Python's
`for thermal in self.thermals: … break` / first match wins. -/
noncomputable def findThermal : List Thermal → ℝ → ℝ → ℝ → Option Thermal
  | [], _, _, _ => none
  | t :: ts, lat, lon, alt =>
    if calculateDistance lat lon t.lat t.lon < t.radius ∧ alt < t.topAltitude then some t
    else findThermal ts lat lon alt

open scoped Classical in
/-- GROUND branch of `update_paraglider_physics` (lines 476-488). -/
noncomputable def groundStep (p : Paraglider) (d : Draws) : Paraglider :=
  if d.takeoffRoll < 0.05 then
    { p with phase := .TAKEOFF, speed := 25, vario := 2.0, heading := d.takeoffHeading }
  else if d.taxiRoll < 0.3 then
    { p with speed := d.taxiSpeed, heading := pymod (p.heading + d.taxiHeadingDelta) 360 }
  else p

open scoped Classical in
/-- TAKEOFF branch (lines 490-502). -/
noncomputable def takeoffStep (p : Paraglider) (d : Draws) (dt : ℝ) : Paraglider :=
  let p1 := { p with speed := min 40 (p.speed + d.takeoffSpeedInc) }
  let p2 := { p1 with vario := d.takeoffVario }
  let p3 := { p2 with altitude := p2.altitude + p2.vario * dt }
  let p4 := { p3 with heading := pymod (p3.heading + d.takeoffHeadingJitter) 360 }
  if p4.altitude > p4.site.alt + 50 then { p4 with phase := .CLIMBING } else p4

open scoped Classical in
/-- CLIMBING branch (lines 504-524). -/
noncomputable def climbingStep (thermals : List Thermal) (p : Paraglider) (d : Draws)
    (dt : ℝ) : Paraglider :=
  let p1 := { p with speed := d.climbSpeed }
  let p2 := { p1 with vario := max (-2) (p1.vario - d.climbVarioDecay) }
  let p3 := { p2 with altitude := p2.altitude + p2.vario * dt }
  let p4 := { p3 with heading := pymod (p3.heading + d.climbHeadingDelta) 360 }
  match findThermal thermals p4.lat p4.lon p4.altitude with
  | some t => { p4 with phase := .THERMALING, thermal := some t }
  | none =>
    if p4.vario < -1 ∨ d.climbGiveUpRoll < 0.1 then { p4 with phase := .GLIDING } else p4

open scoped Classical in
/-- Body of the THERMALING branch for a bound thermal `t` (lines 528-554).
The position is set directly from the thermal center; the wind-drift pair
drawn at lines 538-539 is dead code. -/
noncomputable def thermalCircle (p : Paraglider) (d : Draws) (dt : ℝ) (t : Thermal) :
    Paraglider :=
  let p1 := { p with heading := pymod (p.heading + d.turnRate) 360 }
  let p2 := { p1 with lat := t.lat + d.thermalRadius * Real.cos (radians p1.heading) / 111111 }
  let p3 := { p2 with
    lon := t.lon + d.thermalRadius * Real.sin (radians p2.heading) /
      (111111 * Real.cos (radians p2.lat)) }
  let p4 := { p3 with vario := t.strength * d.thermalClimbMult }
  let p5 := { p4 with altitude := p4.altitude + p4.vario * dt }
  let p6 := { p5 with speed := d.thermalSpeed }
  if p6.altitude > t.topAltitude ∨ d.thermalExitRoll < 0.02 then
    { p6 with phase := .GLIDING, thermal := none, speed := d.thermalExitSpeed }
  else p6

/-- THERMALING branch (lines 526-554): a no-op unless a thermal is bound. -/
noncomputable def thermalingStep (p : Paraglider) (d : Draws) (dt : ℝ) : Paraglider :=
  match p.thermal with
  | none => p
  | some t => thermalCircle p d dt t

open scoped Classical in
/-- GLIDING branch (lines 556-582). -/
noncomputable def glidingStep (p : Paraglider) (d : Draws) (dt : ℝ) : Paraglider :=
  let p1 := { p with vario := d.glideVario }
  let p2 := { p1 with altitude := p1.altitude + p1.vario * dt }
  let p3 := { p2 with speed := d.glideSpeed }
  let p4 := { p3 with heading := pymod (p3.heading + d.glideHeadingDelta) 360 }
  let p5 := if p4.vario < -1.5 then { p4 with speed := min 55 (p4.speed + 2) } else p4
  let p6 := if d.glideLiftRoll < 0.05 then { p5 with vario := d.glideLiftVario } else p5
  if p6.altitude < p6.site.landAlt + 200 then
    { p6 with
      phase := .LANDING
      targetLanding := some
        (p6.site.lat + d.landDistance * Real.cos d.landAngle / 111111,
         p6.site.lon + d.landDistance * Real.sin d.landAngle /
           (111111 * Real.cos (radians p6.site.lat))) }
  else p6

open scoped Classical in
/-- LANDING branch (lines 584-610). -/
noncomputable def landingStep (p : Paraglider) (d : Draws) (dt : ℝ) : Paraglider :=
  let heading1 :=
    match p.targetLanding with
    | some tl =>
      let bearing := calculateBearing p.lat p.lon tl.1 tl.2
      let h1 := smoothTurn p.heading bearing 15
      pymod (h1 + d.landingJitter) 360
    | none => p.heading
  let p1 := { p with heading := heading1 }
  let p2 := { p1 with speed := max 18 (p1.speed - d.landingDecel) }
  let p3 := { p2 with vario := max (-4) (p2.vario - d.landingSinkInc) }
  let p4 := { p3 with altitude := p3.altitude + p3.vario * dt }
  let p5 := if p4.altitude < p4.site.landAlt + 20 then { p4 with vario := max (-2) p4.vario }
    else p4
  if p5.altitude ≤ p5.site.landAlt then
    { p5 with phase := .LANDED, altitude := p5.site.landAlt, speed := 0, vario := 0 }
  else p5

open scoped Classical in
/-- LANDED branch (lines 612-625). -/
noncomputable def landedStep (p : Paraglider) (d : Draws) : Paraglider :=
  if d.landedAgainRoll < 0.03 then
    { p with
      phase := .GROUND
      lat := p.site.lat + d.landedLatJitter
      lon := p.site.lon + d.landedLonJitter
      altitude := p.site.alt
      heading := d.landedHeading }
  else if d.landedPackRoll < 0.2 then
    { p with lat := p.lat + d.packLatJitter, lon := p.lon + d.packLonJitter }
  else p

open scoped Classical in
/-- The "Always update position based on speed and heading" block
(lines 627-650): heading-driven movement plus wind drift, whenever speed > 0. -/
noncomputable def positionIntegration (p : Paraglider) (d : Draws) (dt : ℝ) : Paraglider :=
  if p.speed > 0 then
    let speedMs := p.speed / 3.6
    let dist := speedMs * dt
    let windMs := d.windSpeed / 3.6
    let latChange := dist * Real.cos (radians p.heading) / 111111 +
      windMs * dt * Real.cos (radians d.windDir) / 111111
    let lonChange := dist * Real.sin (radians p.heading) / (111111 * Real.cos (radians p.lat)) +
      windMs * dt * Real.sin (radians d.windDir) / (111111 * Real.cos (radians p.lat))
    { p with lat := p.lat + latChange, lon := p.lon + lonChange }
  else p

/-- `update_paraglider_physics(self, para, dt)` (lines 469-650): battery drain
and flight-time update, then the phase dispatch, then position integration. -/
noncomputable def updateParagliderPhysics (thermals : List Thermal) (p : Paraglider)
    (d : Draws) (dt : ℝ) : Paraglider :=
  let p1 := { p with battery := p.battery - d.batteryDrain, flightTime := d.flightTime }
  let p2 :=
    match p1.phase with
    | .GROUND => groundStep p1 d
    | .TAKEOFF => takeoffStep p1 d dt
    | .CLIMBING => climbingStep thermals p1 d dt
    | .THERMALING => thermalingStep p1 d dt
    | .GLIDING => glidingStep p1 d dt
    | .LANDING => landingStep p1 d dt
    | .LANDED => landedStep p1 d
  positionIntegration p2 d dt

end Emulator

namespace Emulator

/-- The battery-drain-and-clock prefix of a tick (lines 471-473). -/
noncomputable def drained (p : Paraglider) (d : Draws) : Paraglider :=
  { p with battery := p.battery - d.batteryDrain, flightTime := d.flightTime }

lemma updateParagliderPhysics_eq (thermals : List Thermal) (p : Paraglider) (d : Draws)
    (dt : ℝ) :
    updateParagliderPhysics thermals p d dt =
      positionIntegration
        (match p.phase with
         | .GROUND => groundStep (drained p d) d
         | .TAKEOFF => takeoffStep (drained p d) d dt
         | .CLIMBING => climbingStep thermals (drained p d) d dt
         | .THERMALING => thermalingStep (drained p d) d dt
         | .GLIDING => glidingStep (drained p d) d dt
         | .LANDING => landingStep (drained p d) d dt
         | .LANDED => landedStep (drained p d) d) d dt := by
  unfold updateParagliderPhysics drained
  cases p.phase <;> rfl

lemma positionIntegration_battery (p : Paraglider) (d : Draws) (dt : ℝ) :
    (positionIntegration p d dt).battery = p.battery := by
  unfold positionIntegration; split <;> rfl

lemma positionIntegration_phase (p : Paraglider) (d : Draws) (dt : ℝ) :
    (positionIntegration p d dt).phase = p.phase := by
  unfold positionIntegration; split <;> rfl

lemma positionIntegration_speed (p : Paraglider) (d : Draws) (dt : ℝ) :
    (positionIntegration p d dt).speed = p.speed := by
  unfold positionIntegration; split <;> rfl

lemma positionIntegration_vario (p : Paraglider) (d : Draws) (dt : ℝ) :
    (positionIntegration p d dt).vario = p.vario := by
  unfold positionIntegration; split <;> rfl

lemma positionIntegration_altitude (p : Paraglider) (d : Draws) (dt : ℝ) :
    (positionIntegration p d dt).altitude = p.altitude := by
  unfold positionIntegration; split <;> rfl

lemma groundStep_battery (p : Paraglider) (d : Draws) :
    (groundStep p d).battery = p.battery := by
  unfold groundStep; split <;> [rfl; (split <;> rfl)]

lemma takeoffStep_battery (p : Paraglider) (d : Draws) (dt : ℝ) :
    (takeoffStep p d dt).battery = p.battery := by
  unfold takeoffStep; dsimp only; split <;> rfl

lemma climbingStep_battery (thermals : List Thermal) (p : Paraglider) (d : Draws) (dt : ℝ) :
    (climbingStep thermals p d dt).battery = p.battery := by
  unfold climbingStep; dsimp only; split <;> [rfl; (split <;> rfl)]

lemma thermalingStep_battery (p : Paraglider) (d : Draws) (dt : ℝ) :
    (thermalingStep p d dt).battery = p.battery := by
  unfold thermalingStep thermalCircle
  split <;> [rfl; (dsimp only; split <;> rfl)]

lemma glidingStep_battery (p : Paraglider) (d : Draws) (dt : ℝ) :
    (glidingStep p d dt).battery = p.battery := by
  unfold glidingStep
  dsimp only
  split <;> split <;> split <;> rfl

lemma landingStep_battery (p : Paraglider) (d : Draws) (dt : ℝ) :
    (landingStep p d dt).battery = p.battery := by
  unfold landingStep
  dsimp only
  split <;> split <;> rfl

lemma landingStep_site (p : Paraglider) (d : Draws) (dt : ℝ) :
    (landingStep p d dt).site = p.site := by
  unfold landingStep
  dsimp only
  split <;> split <;> rfl

lemma landedStep_battery (p : Paraglider) (d : Draws) :
    (landedStep p d).battery = p.battery := by
  unfold landedStep; split <;> [rfl; (split <;> rfl)]

/-- Every tick subtracts exactly the battery-drain draw from the battery, in
every phase; no branch (including the LANDED→GROUND reset) writes `battery`. -/
lemma update_battery (thermals : List Thermal) (p : Paraglider) (d : Draws) (dt : ℝ) :
    (updateParagliderPhysics thermals p d dt).battery = p.battery - d.batteryDrain := by
  rw [updateParagliderPhysics_eq, positionIntegration_battery]
  have hb : (drained p d).battery = p.battery - d.batteryDrain := rfl
  cases p.phase <;>
    simp only [groundStep_battery, takeoffStep_battery, climbingStep_battery,
      thermalingStep_battery, glidingStep_battery, landingStep_battery,
      landedStep_battery, hb]

end Emulator

namespace Emulator

/-- The Chamonix entry of `FLYING_SITES`. -/
def site0 : Site := ⟨45.9237, 6.8694, 2400, 1050⟩

/-- A concrete paraglider freshly created at Chamonix (phase GROUND). -/
def para0 : Paraglider :=
  ⟨site0, 45.9237, 6.8694, 2400, 0, 0, 0, .GROUND, 95, none, none, true, 0⟩

/-- A concrete tick of draws, each inside its documented range. -/
def draws0 : Draws where
  batteryDrain := 0.02
  flightTime := 3
  takeoffRoll := 0.5
  takeoffHeading := 90
  taxiRoll := 0.5
  taxiSpeed := 3
  taxiHeadingDelta := 10
  takeoffSpeedInc := 2
  takeoffVario := 2
  takeoffHeadingJitter := 1
  climbSpeed := 40
  climbVarioDecay := 0.2
  climbHeadingDelta := 5
  climbGiveUpRoll := 0.5
  turnRate := 15
  thermalRadius := 50
  thermalWindDrift := 1
  thermalWindDir := 180
  thermalClimbMult := 1
  thermalSpeed := 36
  thermalExitRoll := 0.5
  thermalExitSpeed := 45
  glideVario := -1
  glideSpeed := 40
  glideHeadingDelta := 5
  glideLiftRoll := 0.5
  glideLiftVario := 0.5
  landAngle := 1
  landDistance := 500
  landingJitter := 1
  landingDecel := 2
  landingSinkInc := 0.2
  landedAgainRoll := 0.5
  landedLatJitter := 0.0005
  landedLonJitter := 0.0005
  landedHeading := 180
  landedPackRoll := 0.5
  packLatJitter := 0.000005
  packLonJitter := 0.000005
  windSpeed := 0
  windDir := 0

/-- C6: in every phase (including the LANDED→GROUND reset), one tick of
`update_paraglider_physics` never increases the battery: the tick subtracts a
draw from `uniform(0.01, 0.03)` at its start (line 472) and no branch writes
the battery afterwards. -/
theorem battery_nonincreasing_per_tick (thermals : List Thermal) (p : Paraglider) (d : Draws)
    (dt : ℝ) (h1 : 0.01 ≤ d.batteryDrain) (h2 : d.batteryDrain ≤ 0.03) :
    (updateParagliderPhysics thermals p d dt).battery ≤ p.battery ∧
    (updateParagliderPhysics thermals p d dt).battery < p.battery := by
  rw [update_battery]
  constructor <;> linarith

/-- Witness for C6 at a concrete state and tick of draws. -/
theorem battery_nonincreasing_per_tick_witness :
    (updateParagliderPhysics [] para0 draws0 5).battery ≤ para0.battery ∧
    (updateParagliderPhysics [] para0 draws0 5).battery < para0.battery :=
  battery_nonincreasing_per_tick [] para0 draws0 5
    (by norm_num [draws0]) (by norm_num [draws0])

/-- The tick of draws0 with the takeoff roll forced to succeed. -/
def draws7 : Draws := { draws0 with takeoffRoll := 0.01 }

/-- C7: a device at GROUND whose takeoff roll succeeds (`random() < 0.05`)
leaves the tick in phase TAKEOFF with `speed = 25` and `vario = 2.0` exactly
(lines 476-482). -/
theorem ground_takeoff_exact (thermals : List Thermal) (p : Paraglider) (d : Draws) (dt : ℝ)
    (hphase : p.phase = .GROUND) (hroll : d.takeoffRoll < 0.05) :
    (updateParagliderPhysics thermals p d dt).phase = .TAKEOFF ∧
    (updateParagliderPhysics thermals p d dt).speed = 25 ∧
    (updateParagliderPhysics thermals p d dt).vario = 2 := by
  rw [updateParagliderPhysics_eq, hphase]
  dsimp only
  rw [positionIntegration_phase, positionIntegration_speed, positionIntegration_vario]
  unfold groundStep
  rw [if_pos hroll]
  refine ⟨rfl, rfl, ?_⟩
  norm_num

/-- Witness for C7 at a concrete state and tick of draws. -/
theorem ground_takeoff_exact_witness :
    (updateParagliderPhysics [] para0 draws7 5).phase = .TAKEOFF ∧
    (updateParagliderPhysics [] para0 draws7 5).speed = 25 ∧
    (updateParagliderPhysics [] para0 draws7 5).vario = 2 :=
  ground_takeoff_exact [] para0 draws7 5 rfl (by norm_num [draws7, draws0])

end Emulator

namespace Emulator

lemma positionIntegration_site (p : Paraglider) (d : Draws) (dt : ℝ) :
    (positionIntegration p d dt).site = p.site := by
  unfold positionIntegration; split <;> rfl

/-- On touchdown (updated altitude at or below the site's landing altitude),
the LANDING branch snaps the altitude to the landing altitude and zeroes speed
and vertical speed (lines 605-610). -/
lemma landingStep_touchdown (p : Paraglider) (d : Draws) (dt : ℝ)
    (h : p.altitude + max (-4) (p.vario - d.landingSinkInc) * dt ≤ p.site.landAlt) :
    (landingStep p d dt).phase = .LANDED ∧
    (landingStep p d dt).altitude = p.site.landAlt ∧
    (landingStep p d dt).speed = 0 ∧
    (landingStep p d dt).vario = 0 ∧
    (landingStep p d dt).site = p.site := by
  unfold landingStep
  dsimp only
  repeat' split
  all_goals exact ⟨rfl, rfl, rfl, rfl, rfl⟩

/-- While the updated altitude stays above the landing altitude, the LANDING
branch keeps phase LANDING, integrates the altitude, and the stored vertical
speed is at most `max (-2) (vario - sinkInc)`. -/
lemma landingStep_stay (p : Paraglider) (d : Draws) (dt : ℝ)
    (h : p.site.landAlt < p.altitude + max (-4) (p.vario - d.landingSinkInc) * dt) :
    (landingStep p d dt).phase = p.phase ∧
    (landingStep p d dt).altitude = p.altitude + max (-4) (p.vario - d.landingSinkInc) * dt ∧
    (landingStep p d dt).vario ≤ max (-2) (p.vario - d.landingSinkInc) ∧
    (landingStep p d dt).site = p.site := by
  have hv2 : max (-2 : ℝ) (max (-4) (p.vario - d.landingSinkInc)) ≤
      max (-2) (p.vario - d.landingSinkInc) := by
    rw [show max (-2 : ℝ) (max (-4) (p.vario - d.landingSinkInc)) =
        max (max (-2 : ℝ) (-4)) (p.vario - d.landingSinkInc) from (max_assoc _ _ _).symm,
      show max (-2 : ℝ) (-4) = -2 from max_eq_left (by norm_num)]
  have hv4 : max (-4 : ℝ) (p.vario - d.landingSinkInc) ≤
      max (-2) (p.vario - d.landingSinkInc) := max_le_max (by norm_num) le_rfl
  unfold landingStep
  dsimp only
  repeat' split
  all_goals first
    | exact absurd h (not_lt.mpr (by assumption))
    | exact ⟨rfl, rfl, hv2, rfl⟩
    | exact ⟨rfl, rfl, hv4, rfl⟩

/-- Touchdown at the level of a whole tick. -/
lemma update_landing_touchdown (thermals : List Thermal) (p : Paraglider) (d : Draws)
    (dt : ℝ) (hphase : p.phase = .LANDING)
    (h : p.altitude + max (-4) (p.vario - d.landingSinkInc) * dt ≤ p.site.landAlt) :
    (updateParagliderPhysics thermals p d dt).phase = .LANDED ∧
    (updateParagliderPhysics thermals p d dt).altitude = p.site.landAlt ∧
    (updateParagliderPhysics thermals p d dt).speed = 0 ∧
    (updateParagliderPhysics thermals p d dt).vario = 0 := by
  rw [updateParagliderPhysics_eq, hphase]
  dsimp only
  rw [positionIntegration_phase, positionIntegration_altitude, positionIntegration_speed,
    positionIntegration_vario]
  have hstep := landingStep_touchdown (drained p d) d dt h
  exact ⟨hstep.1, hstep.2.1, hstep.2.2.1, hstep.2.2.2.1⟩

/-- Staying in LANDING at the level of a whole tick. -/
lemma update_landing_stay (thermals : List Thermal) (p : Paraglider) (d : Draws)
    (dt : ℝ) (hphase : p.phase = .LANDING)
    (h : p.site.landAlt < p.altitude + max (-4) (p.vario - d.landingSinkInc) * dt) :
    (updateParagliderPhysics thermals p d dt).phase = .LANDING ∧
    (updateParagliderPhysics thermals p d dt).altitude =
      p.altitude + max (-4) (p.vario - d.landingSinkInc) * dt ∧
    (updateParagliderPhysics thermals p d dt).vario ≤ max (-2) (p.vario - d.landingSinkInc) ∧
    (updateParagliderPhysics thermals p d dt).site = p.site := by
  rw [updateParagliderPhysics_eq, hphase]
  dsimp only
  rw [positionIntegration_phase, positionIntegration_altitude, positionIntegration_vario,
    positionIntegration_site]
  have hstep := landingStep_stay (drained p d) d dt h
  exact ⟨by rw [hstep.1]; exact hphase ▸ rfl, hstep.2.1, hstep.2.2.1, hstep.2.2.2⟩

/-- Iterated ticks of `update_paraglider_physics` driven by a draw sequence
(the per-device tick loop of `simulate_paraglider`, physics part only). -/
noncomputable def tickTrace (thermals : List Thermal) (p₀ : Paraglider) (draws : ℕ → Draws)
    (dt : ℝ) : ℕ → Paraglider
  | 0 => p₀
  | n + 1 => updateParagliderPhysics thermals (tickTrace thermals p₀ draws dt n) (draws n) dt

end Emulator

namespace Emulator

lemma tickTrace_succ (thermals : List Thermal) (p₀ : Paraglider) (draws : ℕ → Draws)
    (dt : ℝ) (n : ℕ) :
    tickTrace thermals p₀ draws dt (n + 1) =
      updateParagliderPhysics thermals (tickTrace thermals p₀ draws dt n) (draws n) dt := rfl

/-- A device cannot stay in LANDING forever: the sink-rate draw removes at
least 0.1 m/s of vertical speed per tick (down to the −4/−2 clamps), so the
vertical speed is eventually at most −2 m/s and the altitude then loses at
least 2.1·dt m per tick, eventually crossing the landing altitude. -/
lemma landing_not_forever (thermals : List Thermal) (p₀ : Paraglider) (draws : ℕ → Draws)
    (dt : ℝ) (hphase : p₀.phase = .LANDING) (hdt : 0 < dt)
    (hs : ∀ k, 0.1 ≤ (draws k).landingSinkInc) :
    ¬ ∀ n, (tickTrace thermals p₀ draws dt n).phase = .LANDING := by
  intro hall
  have hstep : ∀ n,
      (tickTrace thermals p₀ draws dt n).site.landAlt <
        (tickTrace thermals p₀ draws dt (n + 1)).altitude ∧
      (tickTrace thermals p₀ draws dt (n + 1)).altitude =
        (tickTrace thermals p₀ draws dt n).altitude +
          max (-4) ((tickTrace thermals p₀ draws dt n).vario -
            (draws n).landingSinkInc) * dt ∧
      (tickTrace thermals p₀ draws dt (n + 1)).vario ≤
        max (-2) ((tickTrace thermals p₀ draws dt n).vario - (draws n).landingSinkInc) ∧
      (tickTrace thermals p₀ draws dt (n + 1)).site =
        (tickTrace thermals p₀ draws dt n).site := by
    intro n
    rcases le_or_lt ((tickTrace thermals p₀ draws dt n).altitude +
        max (-4) ((tickTrace thermals p₀ draws dt n).vario -
          (draws n).landingSinkInc) * dt)
        ((tickTrace thermals p₀ draws dt n).site.landAlt) with hle | hgt
    · have htd := (update_landing_touchdown thermals _ (draws n) dt (hall n) hle).1
      have h2 := hall (n + 1)
      rw [tickTrace_succ, htd] at h2
      exact absurd h2 (by decide)
    · have hstay := update_landing_stay thermals _ (draws n) dt (hall n) hgt
      rw [tickTrace_succ]
      exact ⟨hstay.2.1 ▸ hgt, hstay.2.1, hstay.2.2.1, hstay.2.2.2⟩
  have hsite : ∀ n, (tickTrace thermals p₀ draws dt n).site = p₀.site := by
    intro n
    induction n with
    | zero => rfl
    | succ k ih => rw [(hstep k).2.2.2, ih]
  have hF1 : ∀ n, p₀.site.landAlt < (tickTrace thermals p₀ draws dt (n + 1)).altitude := by
    intro n
    have h := (hstep n).1
    rwa [hsite n] at h
  have key : ∀ k, (tickTrace thermals p₀ draws dt (k + 1)).vario ≤
      max (-2) ((tickTrace thermals p₀ draws dt k).vario - 1 / 10) := by
    intro k
    refine le_trans (hstep k).2.2.1 (max_le_max le_rfl ?_)
    have := hs k
    linarith
  have hvar : ∀ n, (tickTrace thermals p₀ draws dt n).vario ≤
      max (-2) (p₀.vario - n / 10) := by
    intro n
    induction n with
    | zero =>
      show p₀.vario ≤ max (-2) (p₀.vario - (0 : ℕ) / 10)
      rw [Nat.cast_zero, zero_div, sub_zero]
      exact le_max_right _ _
    | succ k ih =>
      refine le_trans (key k) ?_
      have h3 : (tickTrace thermals p₀ draws dt k).vario - 1 / 10 ≤
          max (-2) (p₀.vario - k / 10) - 1 / 10 := by linarith
      refine le_trans (max_le_max le_rfl h3) ?_
      rw [← max_sub_sub_right]
      refine le_trans (max_le_max le_rfl
        (max_le_max (show (-2 : ℝ) - 1 / 10 ≤ -2 by norm_num) le_rfl)) ?_
      rw [← max_assoc, max_self]
      have h4 : p₀.vario - (k : ℝ) / 10 - 1 / 10 = p₀.vario - ((k : ℝ) + 1) / 10 := by ring
      rw [h4]
      refine max_le_max le_rfl (le_of_eq ?_)
      push_cast
      ring
  obtain ⟨N₁, hN₁⟩ := exists_nat_ge (10 * p₀.vario + 20)
  have hv2 : ∀ n, N₁ ≤ n → (tickTrace thermals p₀ draws dt n).vario ≤ -2 := by
    intro n hn
    refine le_trans (hvar n) (max_le le_rfl ?_)
    have hcast : (N₁ : ℝ) ≤ n := Nat.cast_le.mpr hn
    linarith
  have hdrop : ∀ n, N₁ ≤ n → (tickTrace thermals p₀ draws dt (n + 1)).altitude ≤
      (tickTrace thermals p₀ draws dt n).altitude - 21 / 10 * dt := by
    intro n hn
    rw [(hstep n).2.1]
    have h1 : (tickTrace thermals p₀ draws dt n).vario - (draws n).landingSinkInc ≤
        -(21 / 10) := by
      have := hv2 n hn
      have := hs n
      linarith
    have h2 : max (-4 : ℝ) ((tickTrace thermals p₀ draws dt n).vario -
        (draws n).landingSinkInc) ≤ -(21 / 10) := max_le (by norm_num) h1
    have h3 := mul_le_mul_of_nonneg_right h2 hdt.le
    linarith
  have hiter : ∀ j, (tickTrace thermals p₀ draws dt (N₁ + j)).altitude ≤
      (tickTrace thermals p₀ draws dt N₁).altitude - j * (21 / 10 * dt) := by
    intro j
    induction j with
    | zero => simp
    | succ k ih =>
      have hstepk := hdrop (N₁ + k) (Nat.le_add_right _ _)
      have hidx : N₁ + (k + 1) = (N₁ + k) + 1 := rfl
      rw [hidx]
      push_cast
      push_cast at ih
      linarith
  obtain ⟨j, hj⟩ := exists_nat_ge
    (((tickTrace thermals p₀ draws dt N₁).altitude - p₀.site.landAlt) / (21 / 10 * dt))
  have hc : (0 : ℝ) < 21 / 10 * dt := by linarith
  have hj2 : (tickTrace thermals p₀ draws dt N₁).altitude - p₀.site.landAlt ≤
      j * (21 / 10 * dt) := by
    rw [div_le_iff₀ hc] at hj
    linarith
  have hl := hiter (j + 1)
  have hup := hF1 (N₁ + j)
  have hidx2 : N₁ + j + 1 = N₁ + (j + 1) := rfl
  rw [hidx2] at hup
  push_cast at hl
  nlinarith [hl, hup, hj2, hc]

end Emulator

namespace Emulator

open scoped Classical in
/-- C5: a device in phase LANDING reaches LANDED after finitely many ticks of
`update_paraglider_physics`, for every draw sequence within the documented
bounds (`sink increment ∈ [0.1, 0.3]`, `deceleration ∈ [1, 3]`), and on the
transitioning tick the altitude is set exactly to the site's landing altitude
and both speed and vertical speed are set to 0 (lines 605-610). -/
theorem landing_terminates (thermals : List Thermal) (p₀ : Paraglider) (draws : ℕ → Draws)
    (dt : ℝ) (hphase : p₀.phase = .LANDING) (hdt : 0 < dt)
    (hs : ∀ k, 0.1 ≤ (draws k).landingSinkInc ∧ (draws k).landingSinkInc ≤ 0.3)
    (hdec : ∀ k, 1 ≤ (draws k).landingDecel ∧ (draws k).landingDecel ≤ 3) :
    ∃ n, (tickTrace thermals p₀ draws dt n).phase = .LANDING ∧
      (tickTrace thermals p₀ draws dt (n + 1)).phase = .LANDED ∧
      (tickTrace thermals p₀ draws dt (n + 1)).altitude = p₀.site.landAlt ∧
      (tickTrace thermals p₀ draws dt (n + 1)).speed = 0 ∧
      (tickTrace thermals p₀ draws dt (n + 1)).vario = 0 := by
  have hnot := landing_not_forever thermals p₀ draws dt hphase hdt (fun k => (hs k).1)
  push_neg at hnot
  have hex : ∃ k, ¬ (tickTrace thermals p₀ draws dt k).phase = .LANDING := hnot
  have hn₀ := Nat.find_spec hex
  have hmin : ∀ k, k < Nat.find hex → (tickTrace thermals p₀ draws dt k).phase = .LANDING :=
    fun k hk => not_not.mp (Nat.find_min hex hk)
  have hpos : Nat.find hex ≠ 0 := by
    intro h0
    rw [h0] at hn₀
    exact hn₀ hphase
  obtain ⟨n, hn⟩ : ∃ n, Nat.find hex = n + 1 :=
    ⟨Nat.find hex - 1, (Nat.succ_pred_eq_of_pos (Nat.pos_of_ne_zero hpos)).symm⟩
  rw [hn] at hn₀ hmin
  have hPn : (tickTrace thermals p₀ draws dt n).phase = .LANDING := hmin n (Nat.lt_succ_self n)
  have hsite : ∀ k, k ≤ n → (tickTrace thermals p₀ draws dt k).site = p₀.site := by
    intro k
    induction k with
    | zero => intro _; rfl
    | succ i ih =>
      intro hk
      have hki : i ≤ n := le_trans (Nat.le_succ i) hk
      have hPi := hmin i (Nat.lt_succ_of_le hki)
      have hPsi := hmin (i + 1) (Nat.lt_succ_of_le hk)
      rcases le_or_lt ((tickTrace thermals p₀ draws dt i).altitude +
          max (-4) ((tickTrace thermals p₀ draws dt i).vario -
            (draws i).landingSinkInc) * dt)
          ((tickTrace thermals p₀ draws dt i).site.landAlt) with h1 | h2
      · have htd := (update_landing_touchdown thermals _ (draws i) dt hPi h1).1
        rw [tickTrace_succ, htd] at hPsi
        exact absurd hPsi (by decide)
      · have hstay := (update_landing_stay thermals _ (draws i) dt hPi h2).2.2.2
        rw [tickTrace_succ, hstay, ih hki]
  rcases le_or_lt ((tickTrace thermals p₀ draws dt n).altitude +
      max (-4) ((tickTrace thermals p₀ draws dt n).vario -
        (draws n).landingSinkInc) * dt)
      ((tickTrace thermals p₀ draws dt n).site.landAlt) with hle | hgt
  · have htd := update_landing_touchdown thermals _ (draws n) dt hPn hle
    refine ⟨n, hPn, ?_, ?_, ?_, ?_⟩
    · rw [tickTrace_succ]; exact htd.1
    · rw [tickTrace_succ, htd.2.1, hsite n le_rfl]
    · rw [tickTrace_succ]; exact htd.2.2.1
    · rw [tickTrace_succ]; exact htd.2.2.2
  · have hstay := (update_landing_stay thermals _ (draws n) dt hPn hgt).1
    rw [← tickTrace_succ] at hstay
    exact absurd hstay hn₀

/-- The tick of draws0 with LANDING-phase draws at their nominal values; the
initial state for the C5 witness sits 100 m above the Chamonix landing field. -/
def para5 : Paraglider :=
  ⟨site0, 45.92, 6.87, 1150, 30, 0, -1, .LANDING, 80, none, none, true, 10⟩

/-- Witness for C5 at a concrete LANDING state and a constant draw sequence. -/
theorem landing_terminates_witness :
    ∃ n, (tickTrace [] para5 (fun _ => draws0) 5 n).phase = .LANDING ∧
      (tickTrace [] para5 (fun _ => draws0) 5 (n + 1)).phase = .LANDED ∧
      (tickTrace [] para5 (fun _ => draws0) 5 (n + 1)).altitude = para5.site.landAlt ∧
      (tickTrace [] para5 (fun _ => draws0) 5 (n + 1)).speed = 0 ∧
      (tickTrace [] para5 (fun _ => draws0) 5 (n + 1)).vario = 0 :=
  landing_terminates [] para5 (fun _ => draws0) 5 rfl (by norm_num)
    (fun _ => by constructor <;> norm_num [draws0])
    (fun _ => by constructor <;> norm_num [draws0])

end Emulator

namespace Emulator

lemma drained_heading (p : Paraglider) (d : Draws) : (drained p d).heading = p.heading := rfl

lemma drained_thermal (p : Paraglider) (d : Draws) : (drained p d).thermal = p.thermal := rfl

lemma thermalCircle_lat (p : Paraglider) (d : Draws) (dt : ℝ) (t : Thermal) :
    (thermalCircle p d dt t).lat =
      t.lat + d.thermalRadius * Real.cos (radians (pymod (p.heading + d.turnRate) 360)) /
        111111 := by
  unfold thermalCircle; dsimp only; split <;> rfl

lemma thermalCircle_heading (p : Paraglider) (d : Draws) (dt : ℝ) (t : Thermal) :
    (thermalCircle p d dt t).heading = pymod (p.heading + d.turnRate) 360 := by
  unfold thermalCircle; dsimp only; split <;> rfl

lemma thermalCircle_speed (p : Paraglider) (d : Draws) (dt : ℝ) (t : Thermal) :
    (thermalCircle p d dt t).speed = d.thermalSpeed ∨
    (thermalCircle p d dt t).speed = d.thermalExitSpeed := by
  unfold thermalCircle; dsimp only
  split <;> [exact Or.inr rfl; exact Or.inl rfl]

lemma thermalingStep_eq_circle (p : Paraglider) (d : Draws) (dt : ℝ) (t : Thermal)
    (ht : p.thermal = some t) : thermalingStep p d dt = thermalCircle p d dt t := by
  unfold thermalingStep; rw [ht]

/-- The latitude produced by one whole THERMALING tick: the polar offset from
the thermal center (line 542), plus — because the final position-integration
block (lines 627-650) also runs, the stored speed being 30-50 km/h — a
heading-driven displacement proportional to that speed, plus wind drift. -/
lemma update_thermaling_lat (thermals : List Thermal) (p : Paraglider) (d : Draws)
    (dt : ℝ) (t : Thermal) (hphase : p.phase = .THERMALING) (ht : p.thermal = some t)
    (hsp : 0 < d.thermalSpeed) (hsp2 : 0 < d.thermalExitSpeed) :
    ∃ s, (s = d.thermalSpeed ∨ s = d.thermalExitSpeed) ∧
      (updateParagliderPhysics thermals p d dt).lat =
        t.lat + d.thermalRadius * Real.cos (radians (pymod (p.heading + d.turnRate) 360)) /
          111111 +
        (s / 3.6 * dt * Real.cos (radians (pymod (p.heading + d.turnRate) 360)) / 111111 +
         d.windSpeed / 3.6 * dt * Real.cos (radians d.windDir) / 111111) := by
  rw [updateParagliderPhysics_eq, hphase]
  dsimp only
  have ht' : (drained p d).thermal = some t := ht
  rw [thermalingStep_eq_circle (drained p d) d dt t ht']
  have hlat := thermalCircle_lat (drained p d) d dt t
  have hhead := thermalCircle_heading (drained p d) d dt t
  rw [drained_heading] at hlat hhead
  rcases thermalCircle_speed (drained p d) d dt t with hsv | hsv
  · refine ⟨d.thermalSpeed, Or.inl rfl, ?_⟩
    unfold positionIntegration
    rw [if_pos (by rw [hsv]; exact hsp)]
    dsimp only
    rw [hlat, hhead, hsv]
  · refine ⟨d.thermalExitSpeed, Or.inr rfl, ?_⟩
    unfold positionIntegration
    rw [if_pos (by rw [hsv]; exact hsp2)]
    dsimp only
    rw [hlat, hhead, hsv]

lemma abs_cos_term_le (a c : ℝ) (ha : 0 ≤ a) (hc : |c| ≤ 1) :
    |a * c / 111111| ≤ a / 111111 := by
  rw [abs_div, abs_mul, abs_of_nonneg ha, abs_of_nonneg (by norm_num : (0 : ℝ) ≤ 111111)]
  have h1 : a * |c| ≤ a * 1 := mul_le_mul_of_nonneg_left hc ha
  rw [mul_one] at h1
  exact div_le_div_of_nonneg_right h1 (by norm_num)

end Emulator

namespace Emulator

/-- C2 (amended): in THERMALING the position is first set to the polar offset
from the thermal center, but the speed-and-heading integration plus wind drift
(lines 627-650) is NOT bypassed — it runs afterwards, the stored speed being
30-40 km/h (or 40-50 on thermal exit) — so the post-tick latitude differs from
the thermal center by at most (radius + (50 km/h + wind)·dt in m)/111111°,
a bound that necessarily includes the speed term. -/
theorem thermaling_position_bound (thermals : List Thermal) (p : Paraglider) (d : Draws)
    (dt : ℝ) (t : Thermal) (hphase : p.phase = .THERMALING) (ht : p.thermal = some t)
    (hr : 30 ≤ d.thermalRadius) (hr' : d.thermalRadius ≤ 70)
    (hts : 30 ≤ d.thermalSpeed) (hts' : d.thermalSpeed ≤ 40)
    (hes : 40 ≤ d.thermalExitSpeed) (hes' : d.thermalExitSpeed ≤ 50)
    (hw : 0 ≤ d.windSpeed) (hdt : 0 ≤ dt) :
    |(updateParagliderPhysics thermals p d dt).lat - t.lat| * 111111 ≤
      d.thermalRadius + 50 / 3.6 * dt + d.windSpeed / 3.6 * dt := by
  obtain ⟨s, hsor, hlat⟩ :=
    update_thermaling_lat thermals p d dt t hphase ht (by linarith) (by linarith)
  have hs0 : 0 ≤ s := by rcases hsor with h | h <;> (rw [h]; linarith)
  have hs50 : s ≤ 50 := by rcases hsor with h | h <;> (rw [h]; linarith)
  rw [hlat]
  have heq : t.lat + d.thermalRadius *
        Real.cos (radians (pymod (p.heading + d.turnRate) 360)) / 111111 +
      (s / 3.6 * dt * Real.cos (radians (pymod (p.heading + d.turnRate) 360)) / 111111 +
       d.windSpeed / 3.6 * dt * Real.cos (radians d.windDir) / 111111) - t.lat =
      d.thermalRadius * Real.cos (radians (pymod (p.heading + d.turnRate) 360)) / 111111 +
      (s / 3.6 * dt * Real.cos (radians (pymod (p.heading + d.turnRate) 360)) / 111111 +
       d.windSpeed / 3.6 * dt * Real.cos (radians d.windDir) / 111111) := by ring
  rw [heq]
  have hb1 := abs_cos_term_le d.thermalRadius
    (Real.cos (radians (pymod (p.heading + d.turnRate) 360))) (by linarith)
    (Real.abs_cos_le_one _)
  have hb2 := abs_cos_term_le (s / 3.6 * dt)
    (Real.cos (radians (pymod (p.heading + d.turnRate) 360)))
    (by positivity) (Real.abs_cos_le_one _)
  have hb3 := abs_cos_term_le (d.windSpeed / 3.6 * dt) (Real.cos (radians d.windDir))
    (by positivity) (Real.abs_cos_le_one _)
  have habs := le_trans (abs_add _ _) (add_le_add hb1 (le_trans (abs_add _ _)
    (add_le_add hb2 hb3)))
  have hmul := mul_le_mul_of_nonneg_right habs (by norm_num : (0 : ℝ) ≤ 111111)
  have hring : (d.thermalRadius / 111111 + (s / 3.6 * dt / 111111 +
      d.windSpeed / 3.6 * dt / 111111)) * 111111 =
      d.thermalRadius + s / 3.6 * dt + d.windSpeed / 3.6 * dt := by ring
  rw [hring] at hmul
  have hsb : s / 3.6 * dt ≤ 50 / 3.6 * dt :=
    mul_le_mul_of_nonneg_right (by gcongr) hdt
  linarith

/-- The thermal bound for the C2 scenario (center (46, 7), strength 3 m/s,
ceiling 3000 m). -/
def thermalC : Thermal := ⟨46, 7, 100, 3, 3000⟩

/-- A THERMALING state bound to `thermalC`, heading 345°. -/
def paraC : Paraglider :=
  ⟨site0, 46, 7, 2500, 35, 345, 1, .THERMALING, 90, some thermalC, none, true, 5⟩

/-- The C2 ralley of draws: turn rate 15°/s (so the post-turn heading is 0°,
i.e. due north), circling radius 70 m, thermaling speed 36 km/h, no wind. -/
def drawsC : Draws := { draws0 with thermalRadius := 70 }

/-- C2 counterexample: with the draws of `drawsC` and `dt = 5 s`, the post-tick
latitude is 120 m north of the thermal center (70 m polar offset plus
36 km/h · 5 s = 50 m of speed-and-heading integration), violating the claimed
"radius plus wind drift" bound of 70 m: the integration is not bypassed and
the displacement depends on the speed. -/
theorem thermaling_claim_counterexample :
    ¬ (|(updateParagliderPhysics [] paraC drawsC 5).lat - thermalC.lat| * 111111 ≤
        drawsC.thermalRadius + drawsC.windSpeed / 3.6 * 5) := by
  obtain ⟨s, hsor, hlat⟩ := update_thermaling_lat [] paraC drawsC 5 thermalC rfl rfl
    (by norm_num [drawsC, draws0]) (by norm_num [drawsC, draws0])
  have hh : pymod (paraC.heading + drawsC.turnRate) 360 = 0 := by
    show pymod ((345 : ℝ) + 15) 360 = 0
    unfold pymod
    norm_num
  have hcos : Real.cos (radians (pymod (paraC.heading + drawsC.turnRate) 360)) = 1 := by
    rw [hh]
    unfold radians
    norm_num
  rw [hcos] at hlat
  intro hle
  rw [hlat] at hle
  rcases hsor with h | h <;> rw [h] at hle <;>
    norm_num [drawsC, draws0, thermalC, paraC, abs_of_pos] at hle
end Emulator

namespace Emulator

/-- Witness for the amended C2 bound at the concrete THERMALING scenario. -/
theorem thermaling_position_bound_witness :
    |(updateParagliderPhysics [] paraC drawsC 5).lat - thermalC.lat| * 111111 ≤
      drawsC.thermalRadius + 50 / 3.6 * 5 + drawsC.windSpeed / 3.6 * 5 :=
  thermaling_position_bound [] paraC drawsC 5 thermalC rfl rfl
    (by norm_num [drawsC, draws0]) (by norm_num [drawsC, draws0])
    (by norm_num [drawsC, draws0]) (by norm_num [drawsC, draws0])
    (by norm_num [drawsC, draws0]) (by norm_num [drawsC, draws0])
    (by norm_num [drawsC, draws0]) (by norm_num)

end Emulator

namespace Emulator

/-- A transport through which `send_gps_update` can publish: a dedicated
per-device MQTT client, or a handle picked from the shared pool. -/
inductive Transport
  | dedicated
  | pooled (idx : ℕ)
  deriving DecidableEq, Repr

/-- `create_paraglider`, MQTT part (lines 376-399): above 50 devices the
session gets no dedicated client ("will use shared publishing"); at or below
50 a dedicated client is connected, or left absent if the connect fails. -/
def createParagliderClient (numDevices : ℕ) (connectOk : Bool) : Option Unit :=
  if 50 < numDevices then none
  else if connectOk then some () else none

/-- `run` (lines 753-756): the shared pool is created only above 500 devices,
with `min(50, max(10, num_devices // 20))` planned connections. -/
def runPoolPlan (numDevices : ℕ) : ℕ :=
  if 500 < numDevices then min 50 (max 10 (numDevices / 20)) else 0

/-- `get_pool_client` (lines 343-350): round-robin over the pool, `None` when
the pool is empty. -/
def getPoolClient (poolLen poolIndex : ℕ) : Option ℕ :=
  if poolLen = 0 then none else some (poolIndex % poolLen)

/-- The transport `send_gps_update` publishes through (lines 408-413): the
dedicated client if the session owns one, otherwise a pool handle; `none`
means the update is silently dropped. -/
def sendTransport (numDevices : ℕ) (connectOk : Bool) (poolLen poolIndex : ℕ) :
    Option Transport :=
  match createParagliderClient numDevices connectOk with
  | some _ => some .dedicated
  | none => (getPoolClient poolLen poolIndex).map .pooled

/-- C1, evaluated at the failing input: a run with `num_devices = 100` (any
value in 51..500) gives every session neither a dedicated client (threshold
50) nor a pool handle (the pool is only built above 500 devices, so it is
empty) — `send_gps_update` has no transport at all and silently drops every
update, contradicting the claimed "exactly one kind of transport, never
neither". -/
theorem mid_range_device_has_no_transport :
    runPoolPlan 100 = 0 ∧
    (∀ idx, sendTransport 100 true (runPoolPlan 100) idx = none) ∧
    (∀ idx, sendTransport 100 false (runPoolPlan 100) idx = none) := by
  refine ⟨rfl, fun idx => ?_, fun idx => ?_⟩ <;> rfl

/-- The response classes `register_device` distinguishes (lines 283-311). -/
inductive RegResponse
  | ok          -- HTTP 200
  | badRequest  -- HTTP 400 ("device might already exist")
  | otherHttp   -- any other HTTP status: returns None
  | connError   -- connection error / exception: returns None
  deriving DecidableEq, Repr

/-- `register_device` (lines 247-311), with the i-th attempt's HTTP outcome
and `random.randint(0, 999)` draw supplied by oracles, and a fuel bound (the
source recursion at line 298 is unbounded: it re-invokes itself for as long
as the server answers 400).  Returns (number of attempts made, the device
ordinal registered on success). -/
def registerDevice (resp : ℕ → RegResponse) (draw : ℕ → ℕ) :
    ℕ → ℕ → ℕ → ℕ × Option ℕ
  | 0, _, _ => (0, none)
  | fuel + 1, i, num =>
    match resp i with
    | .ok => (1, some num)
    | .badRequest =>
      let newNum := num + 1000 + draw i
      let rest := registerDevice resp draw fuel (i + 1) newNum
      (rest.1 + 1, rest.2)
    | .otherHttp => (1, none)
    | .connError => (1, none)

/-- The C3 response oracle: the first two attempts hit HTTP 400, the third
succeeds. -/
def respC3 : ℕ → RegResponse := fun i => if i ≤ 1 then .badRequest else .ok

/-- C3 counterexample: when the retried registration hits 400 again,
`register_device` retries a second time — three attempts in total, not the
two (one original + exactly one additional) the claim allows. -/
theorem register_retry_counterexample :
    (registerDevice respC3 (fun _ => 0) 10 0 7).1 = 3 ∧
    ¬ (registerDevice respC3 (fun _ => 0) 10 0 7).1 = 2 := by
  refine ⟨rfl, ?_⟩
  intro h
  simp [registerDevice, respC3] at h

/-- C3 (amended): on each HTTP 400 response `register_device` immediately
re-invokes itself under a perturbed ordinal (`num + 1000 + randint(0, 999)`,
line 297); the recursion repeats for as long as 400s are returned, so the
number of additional attempts equals the number of consecutive 400 responses
(exactly one only when the first retry is not answered with 400). -/
theorem register_retries_per_400 (resp : ℕ → RegResponse) (draw : ℕ → ℕ) :
    ∀ k fuel i0 num, k < fuel →
      (∀ j, j < k → resp (i0 + j) = .badRequest) →
      resp (i0 + k) ≠ .badRequest →
      (registerDevice resp draw fuel i0 num).1 = k + 1 := by
  intro k
  induction k with
  | zero =>
    intro fuel i0 num hfuel _ hok
    obtain ⟨f, rfl⟩ : ∃ f, fuel = f + 1 :=
      ⟨fuel - 1, (Nat.succ_pred_eq_of_pos hfuel).symm⟩
    rw [Nat.add_zero] at hok
    unfold registerDevice
    cases hr : resp i0 <;> simp [hr] at hok ⊢
  | succ k ih =>
    intro fuel i0 num hfuel hbad hok
    obtain ⟨f, rfl⟩ : ∃ f, fuel = f + 1 :=
      ⟨fuel - 1, (Nat.succ_pred_eq_of_pos (Nat.lt_of_le_of_lt (Nat.zero_le _) hfuel)).symm⟩
    have h0 : resp i0 = .badRequest := by
      have := hbad 0 (Nat.succ_pos k)
      simpa using this
    unfold registerDevice
    rw [h0]
    have hrec := ih f (i0 + 1) (num + 1000 + draw i0)
      (Nat.lt_of_succ_lt_succ hfuel)
      (fun j hj => by
        have := hbad (j + 1) (Nat.succ_lt_succ hj)
        rwa [show i0 + (j + 1) = i0 + 1 + j by omega] at this)
      (by rwa [show i0 + 1 + k = i0 + (k + 1) by omega])
    simp [hrec]

/-- Witness for C3 (amended) at the concrete oracle of the counterexample:
two consecutive 400s followed by a success give exactly 2 + 1 attempts. -/
theorem register_retries_per_400_witness :
    (registerDevice respC3 (fun _ => 0) 10 0 7).1 = 2 + 1 :=
  register_retries_per_400 respC3 (fun _ => 0) 2 10 0 7 (by norm_num)
    (fun j hj => by interval_cases j <;> rfl) (by decide)

end Emulator

namespace Emulator

open scoped Classical in
/-- `simulate_paraglider` (lines 693-716): per tick, run the physics, publish
the telemetry point (when the session has a transport; the published point
carries the post-physics battery level), and only then check the battery
floor, marking the session inactive and exiting when it is below 5.  The loop
also exits when the shared running flag is cleared.  Returns the list of
published battery levels and the final session state. -/
noncomputable def workerRun (thermals : List Thermal) (dt : ℝ) :
    (ℕ → Draws) → (ℕ → Bool) → Bool → ℕ → Paraglider → List ℝ × Paraglider
  | _, _, _, 0, p => ([], p)
  | draws, running, hasTransport, fuel + 1, p =>
    if running 0 = true ∧ p.active = true then
      let p' := updateParagliderPhysics thermals p (draws 0) dt
      let emits := if hasTransport then [p'.battery] else []
      if p'.battery < 5 then
        (emits, { p' with active := false })
      else
        let rest := workerRun thermals dt (fun k => draws (k + 1))
          (fun k => running (k + 1)) hasTransport fuel p'
        (emits ++ rest.1, rest.2)
    else ([], p)

open scoped Classical in
/-- C10: on the tick where the battery first drops below the 5% floor, the
worker still runs the physics and publishes that tick's point — carrying the
sub-floor battery value — before marking the session inactive and exiting;
consequently a session emits at most one point with battery below 5. -/
theorem worker_sub5_emission (thermals : List Thermal) (dt : ℝ) (draws : ℕ → Draws)
    (running : ℕ → Bool) (p : Paraglider) (fuel : ℕ)
    (hrun : running 0 = true) (hact : p.active = true)
    (hlow : (updateParagliderPhysics thermals p (draws 0) dt).battery < 5) :
    (workerRun thermals dt draws running true (fuel + 1) p).1 =
      [(updateParagliderPhysics thermals p (draws 0) dt).battery] ∧
    (workerRun thermals dt draws running true (fuel + 1) p).2.active = false ∧
    (∀ fuel' (draws' : ℕ → Draws) (running' : ℕ → Bool) (ht : Bool) (q : Paraglider),
      (workerRun thermals dt draws' running' ht fuel' q).1.countP
        (fun b => decide (b < 5)) ≤ 1) := by
  refine ⟨?_, ?_, ?_⟩
  · unfold workerRun
    rw [if_pos ⟨hrun, hact⟩]
    dsimp only
    rw [if_pos hlow]
    rfl
  · unfold workerRun
    rw [if_pos ⟨hrun, hact⟩]
    dsimp only
    rw [if_pos hlow]
  · intro fuel'
    induction fuel' with
    | zero =>
      intro draws' running' ht q
      simp [workerRun]
    | succ f ih =>
      intro draws' running' ht q
      unfold workerRun
      split
      · dsimp only
        split
        · dsimp only
          refine le_trans (List.countP_le_length _) ?_
          cases ht <;> simp
        · rename_i hge
          rw [List.countP_append]
          have h0 : (if ht = true
              then [(updateParagliderPhysics thermals q (draws' 0) dt).battery]
              else ([] : List ℝ)).countP (fun b => decide (b < 5)) = 0 := by
            cases ht <;> simp [hge]
          rw [h0]
          simpa using ih (fun k => draws' (k + 1)) (fun k => running' (k + 1)) ht
            (updateParagliderPhysics thermals q (draws' 0) dt)
      · simp
  
/-- The C10 witness state: an active session whose battery is about to cross
the 5% floor. -/
def para10 : Paraglider :=
  ⟨site0, 45.9237, 6.8694, 2400, 0, 0, 0, .GROUND, 5.01, none, none, true, 0⟩

/-- Witness for C10 at a concrete near-depleted session. -/
theorem worker_sub5_emission_witness :
    (workerRun [] 5 (fun _ => draws0) (fun _ => true) true (2 + 1) para10).1 =
      [(updateParagliderPhysics [] para10 (draws0) 5).battery] ∧
    (workerRun [] 5 (fun _ => draws0) (fun _ => true) true (2 + 1) para10).2.active = false ∧
    (workerRun [] 5 (fun _ => draws0) (fun _ => true) true 4 para10).1.countP
      (fun b => decide (b < 5)) ≤ 1 := by
  have h := worker_sub5_emission [] 5 (fun _ => draws0) (fun _ => true) para10 2 rfl rfl
    (by rw [update_battery]; norm_num [para10, draws0])
  exact ⟨h.1, h.2.1, h.2.2 4 (fun _ => draws0) (fun _ => true) true para10⟩

end Emulator

namespace Emulator

/-- The pruning step of `RateLimiter.wait_if_needed` (line 123): keep only the
timestamps strictly younger than one second. -/
def rlPrune (now : ℚ) (l : List ℚ) : List ℚ := l.filter (fun t => now - t < 1)

/-- One call to `RateLimiter.wait_if_needed` (lines 118-131) under idealized
timing: `now` is the clock when the lock is taken, `eps ≥ 0` the extra delay
before the appended `time.time()` reading (zero means the sleep is exact).
Returns the new timestamp list and the recorded completion time. -/
def rlStep (R : ℕ) (l : List ℚ) (now eps : ℚ) : List ℚ × ℚ :=
  let pruned := rlPrune now l
  if R ≤ pruned.length then
    let sleepTime := 1 - (now - pruned.headD 0)
    let c := if 0 < sleepTime then now + sleepTime + eps else now + eps
    (pruned ++ [c], c)
  else (pruned ++ [now + eps], now + eps)

/-- The serialized trace of calls: the `j`-th call takes the lock at `now j`
(the lock is held through the sleep, so calls are strictly sequential). -/
def rlTrace (R : ℕ) (now eps : ℕ → ℚ) : ℕ → List ℚ × ℚ
  | 0 => rlStep R [] (now 0) (eps 0)
  | j + 1 => rlStep R (rlTrace R now eps j).1 (now (j + 1)) (eps (j + 1))

/-- The completion (timestamp-recording) time of the `j`-th call. -/
def rlComp (R : ℕ) (now eps : ℕ → ℚ) (j : ℕ) : ℚ := (rlTrace R now eps j).2

/-- The completion times of the first `j` calls, in order. -/
def rlComps (R : ℕ) (now eps : ℕ → ℚ) (j : ℕ) : List ℚ :=
  (List.range j).map (rlComp R now eps)

lemma rlStep_now_le (R : ℕ) (l : List ℚ) (n e : ℚ) (he : 0 ≤ e) :
    n ≤ (rlStep R l n e).2 := by
  unfold rlStep
  dsimp only
  split
  · split
    · rename_i hs
      dsimp only
      linarith
    · dsimp only
      linarith
  · dsimp only
    linarith

lemma rlStep_fst (R : ℕ) (l : List ℚ) (n e : ℚ) :
    (rlStep R l n e).1 = rlPrune n l ++ [(rlStep R l n e).2] := by
  unfold rlStep
  dsimp only
  split
  · rfl
  · rfl

lemma rlPrune_rlPrune (n n' : ℚ) (h : n ≤ n') (l : List ℚ) :
    rlPrune n' (rlPrune n l) = rlPrune n' l := by
  unfold rlPrune
  rw [List.filter_filter]
  apply List.filter_congr
  intro a _
  by_cases hc : n' - a < 1
  · have hc2 : n - a < 1 := by linarith
    simp [hc, hc2]
  · simp [hc]

end Emulator

namespace Emulator

lemma rl_now_le_comp (R : ℕ) (now eps : ℕ → ℚ) (heps : ∀ j, 0 ≤ eps j) (j : ℕ) :
    now j ≤ rlComp R now eps j := by
  cases j with
  | zero => exact rlStep_now_le R [] (now 0) (eps 0) (heps 0)
  | succ k => exact rlStep_now_le R _ (now (k + 1)) (eps (k + 1)) (heps (k + 1))

lemma rl_comp_mono (R : ℕ) (now eps : ℕ → ℚ) (heps : ∀ j, 0 ≤ eps j)
    (hmon : ∀ j, rlComp R now eps j ≤ now (j + 1)) :
    Monotone (rlComp R now eps) :=
  monotone_nat_of_le_succ fun j =>
    le_trans (hmon j) (rl_now_le_comp R now eps heps (j + 1))

lemma rl_now_mono_succ (R : ℕ) (now eps : ℕ → ℚ) (heps : ∀ j, 0 ≤ eps j)
    (hmon : ∀ j, rlComp R now eps j ≤ now (j + 1)) (j : ℕ) :
    now j ≤ now (j + 1) :=
  le_trans (rl_now_le_comp R now eps heps j) (hmon j)

lemma rl_state_eq (R : ℕ) (now eps : ℕ → ℚ) (heps : ∀ j, 0 ≤ eps j)
    (hmon : ∀ j, rlComp R now eps j ≤ now (j + 1)) :
    ∀ j, (rlTrace R now eps j).1 =
      rlPrune (now j) (rlComps R now eps j) ++ [rlComp R now eps j] := by
  intro j
  induction j with
  | zero =>
    show (rlStep R [] (now 0) (eps 0)).1 = _
    rw [rlStep_fst]
    rfl
  | succ k ih =>
    show (rlStep R (rlTrace R now eps k).1 (now (k + 1)) (eps (k + 1))).1 = _
    rw [rlStep_fst, ih]
    unfold rlPrune
    rw [List.filter_append]
    have hcol : List.filter (fun t => decide (now (k + 1) - t < 1))
        (List.filter (fun t => decide (now k - t < 1)) (rlComps R now eps k)) =
        List.filter (fun t => decide (now (k + 1) - t < 1)) (rlComps R now eps k) :=
      rlPrune_rlPrune (now k) (now (k + 1)) (rl_now_mono_succ R now eps heps hmon k) _
    rw [hcol]
    have hcomps : rlComps R now eps (k + 1) = rlComps R now eps k ++ [rlComp R now eps k] := by
      unfold rlComps
      rw [List.range_succ, List.map_append]
      rfl
    rw [hcomps, List.filter_append]
    rw [show rlComp R now eps (k + 1) =
      (rlStep R (rlTrace R now eps k).1 (now (k + 1)) (eps (k + 1))).2 from rfl, ih]
    rfl

/-- The list pruned inside call `j + 1` is exactly the filter of all previous
completions by the trailing-window predicate. -/
lemma rl_pruned_eq (R : ℕ) (now eps : ℕ → ℚ) (heps : ∀ j, 0 ≤ eps j)
    (hmon : ∀ j, rlComp R now eps j ≤ now (j + 1)) (k : ℕ) :
    rlPrune (now (k + 1)) ((rlTrace R now eps k).1) =
      rlPrune (now (k + 1)) (rlComps R now eps (k + 1)) := by
  rw [rl_state_eq R now eps heps hmon k]
  unfold rlPrune
  rw [List.filter_append]
  have hcol := rlPrune_rlPrune (now k) (now (k + 1))
    (rl_now_mono_succ R now eps heps hmon k) (rlComps R now eps k)
  unfold rlPrune at hcol
  rw [hcol]
  have hcomps : rlComps R now eps (k + 1) = rlComps R now eps k ++ [rlComp R now eps k] := by
    unfold rlComps
    rw [List.range_succ, List.map_append]
    rfl
  rw [hcomps, List.filter_append]

end Emulator

namespace Emulator

/-- Minimum spacing: the `(i+R)`-th completion is at least one second after
the `i`-th.  The sleep-to-oldest logic (line 127) is exactly strong enough:
the oldest surviving timestamp is at most one second old, and sleeping until
it ages out re-establishes the spacing. -/
lemma rl_spacing (R : ℕ) (now eps : ℕ → ℚ) (hR : 1 ≤ R) (heps : ∀ j, 0 ≤ eps j)
    (hmon : ∀ j, rlComp R now eps j ≤ now (j + 1)) :
    ∀ i, rlComp R now eps i + 1 ≤ rlComp R now eps (i + R) := by
  intro i
  induction i using Nat.strong_induction_on with
  | _ i IH =>
    obtain ⟨k, hk⟩ : ∃ k, i + R = k + 1 := ⟨i + R - 1, by omega⟩
    have hpr : rlPrune (now (k + 1)) ((rlTrace R now eps k).1) =
        rlPrune (now (k + 1)) (rlComps R now eps (k + 1)) :=
      rl_pruned_eq R now eps heps hmon k
    have hcompk : rlComp R now eps (i + R) =
        (rlStep R (rlTrace R now eps k).1 (now (k + 1)) (eps (k + 1))).2 := by
      rw [hk]; rfl
    rw [hcompk]
    unfold rlStep
    dsimp only
    rw [hpr]
    split
    · -- sleep branch: list still full after pruning
      rename_i hlen
      dsimp only
      have hne : rlPrune (now (k + 1)) (rlComps R now eps (k + 1)) ≠ [] := by
        intro h
        rw [h] at hlen
        simp at hlen
        omega
      obtain ⟨a, tl, hptl⟩ := List.exists_cons_of_ne_nil hne
      have hhead : (rlPrune (now (k + 1)) (rlComps R now eps (k + 1))).headD 0 = a := by
        rw [hptl]; rfl
      have hamem : a ∈ rlPrune (now (k + 1)) (rlComps R now eps (k + 1)) := by
        rw [hptl]; exact List.mem_cons_self a tl
      have hamem2 : a ∈ (rlComps R now eps (k + 1)).filter
          (fun t => decide (now (k + 1) - t < 1)) := hamem
      obtain ⟨hmemL, hpred⟩ := List.mem_filter.mp hamem2
      have hwin : now (k + 1) - a < 1 := of_decide_eq_true hpred
      obtain ⟨m, hmr, hma⟩ := List.mem_map.mp hmemL
      have hmk : m < k + 1 := List.mem_range.mp hmr
      rw [hhead]
      have hsl : 0 < 1 - (now (k + 1) - a) := by linarith
      rw [if_pos hsl]
      rcases le_or_lt i m with him | him
      · have hmono := rl_comp_mono R now eps heps hmon him
        rw [hma] at hmono
        have := heps (k + 1)
        linarith
      · have hIH := IH m him
        rw [hma] at hIH
        have hmR : m + R ≤ k := by omega
        have h1 := rl_comp_mono R now eps heps hmon hmR
        have h2 := hmon k
        exact absurd hIH (not_le.mpr (by linarith))
    · -- no-sleep branch: fewer than R recent completions
      rename_i hlen
      dsimp only
      have hle : rlComp R now eps i ≤ now (k + 1) - 1 := by
        by_contra hgt
        push_neg at hgt
        apply hlen
        have happ := List.range'_append 0 i R 1
        simp only [Nat.zero_add, Nat.one_mul] at happ
        have hrange : List.range (i + R) = List.range' 0 i ++ List.range' i R := by
          rw [List.range_eq_range', Nat.add_comm i R, ← happ]
        have hsub0 : (List.range' i R).Sublist (List.range (i + R)) := by
          rw [hrange]
          exact List.sublist_append_right _ _
        have hall : ∀ a ∈ (List.range' i R).map (rlComp R now eps),
            (fun t => decide (now (k + 1) - t < 1)) a = true := by
          intro a ha
          obtain ⟨m, hm, rfl⟩ := List.mem_map.mp ha
          obtain ⟨q, hq, hmq⟩ := List.mem_range'.mp hm
          have him : i ≤ m := by omega
          have hmono := rl_comp_mono R now eps heps hmon him
          exact decide_eq_true (by linarith)
        have hfeq := List.filter_eq_self.mpr hall
        have hsubf : (((List.range' i R).map (rlComp R now eps)).filter
            (fun t => decide (now (k + 1) - t < 1))).Sublist
            (((List.range (i + R)).map (rlComp R now eps)).filter
              (fun t => decide (now (k + 1) - t < 1))) :=
          (hsub0.map _).filter _
        rw [hfeq] at hsubf
        have hlenle := hsubf.length_le
        rw [List.length_map, List.length_range'] at hlenle
        have : (rlComps R now eps (k + 1)) = (List.range (i + R)).map (rlComp R now eps) := by
          rw [hk]; rfl
        rw [show rlPrune (now (k + 1)) (rlComps R now eps (k + 1)) =
          ((List.range (i + R)).map (rlComp R now eps)).filter
            (fun t => decide (now (k + 1) - t < 1)) by rw [← this]; rfl]
        exact hlenle
      have := heps (k + 1)
      linarith

end Emulator

namespace Emulator

/-- C4: for every R ≥ 1 and every serialized call sequence (arrival clock
`now`, nonnegative scheduling slack `eps`, idealized exact sleeps), no
trailing one-second window `(w-1, w]` — windowed exactly as the code's own
prune predicate `now - t < 1.0` windows timestamps — contains more than R
completed acquisitions of `RateLimiter.wait_if_needed`. -/
theorem rate_limiter_window_bound (R : ℕ) (now eps : ℕ → ℚ) (hR : 1 ≤ R)
    (heps : ∀ j, 0 ≤ eps j) (hmon : ∀ j, rlComp R now eps j ≤ now (j + 1))
    (n : ℕ) (w : ℚ) :
    ((Finset.range n).filter
      (fun i => w - rlComp R now eps i < 1 ∧ rlComp R now eps i ≤ w)).card ≤ R := by
  by_contra hcard
  push_neg at hcard
  set S := (Finset.range n).filter
    (fun i => w - rlComp R now eps i < 1 ∧ rlComp R now eps i ≤ w) with hS
  have hne : S.Nonempty := Finset.card_pos.mp (by omega)
  have hi0 : S.min' hne ∈ S := S.min'_mem hne
  have hi1 : S.max' hne ∈ S := S.max'_mem hne
  have hc0 := (Finset.mem_filter.mp hi0).2
  have hc1 := (Finset.mem_filter.mp hi1).2
  have hsub : S ⊆ Finset.Icc (S.min' hne) (S.max' hne) := fun x hx =>
    Finset.mem_Icc.mpr ⟨S.min'_le x hx, S.le_max' x hx⟩
  have hcard2 := Finset.card_le_card hsub
  rw [Nat.card_Icc] at hcard2
  have hiR : S.min' hne + R ≤ S.max' hne := by omega
  have hsp := rl_spacing R now eps hR heps hmon (S.min' hne)
  have hmono := rl_comp_mono R now eps heps hmon hiR
  linarith [hc0.1, hc1.2]

lemma rlTrace_witness_eval :
    ∀ j, rlTrace 1 (fun j => 2 * (j : ℚ)) (fun _ => 0) j = ([2 * (j : ℚ)], 2 * (j : ℚ)) := by
  intro j
  induction j with
  | zero =>
    show rlStep 1 [] (2 * ((0 : ℕ) : ℚ)) 0 = _
    unfold rlStep rlPrune
    norm_num
  | succ m ih =>
    have hstep : rlTrace 1 (fun j => 2 * (j : ℚ)) (fun _ => 0) (m + 1) =
        rlStep 1 (rlTrace 1 (fun j => 2 * (j : ℚ)) (fun _ => 0) m).1
          (2 * ((m + 1 : ℕ) : ℚ)) 0 := rfl
    rw [hstep, ih]
    have hnot : ¬(2 * ((m : ℚ) + 1) - 2 * (m : ℚ) < 1) := by linarith
    unfold rlStep rlPrune
    simp [hnot]

/-- Witness for C4: R = 1, calls arriving two seconds apart, exact sleeps. -/
theorem rate_limiter_window_bound_witness :
    ((Finset.range 5).filter
      (fun i => (3 : ℚ) - rlComp 1 (fun j => 2 * (j : ℚ)) (fun _ => 0) i < 1 ∧
        rlComp 1 (fun j => 2 * (j : ℚ)) (fun _ => 0) i ≤ 3)).card ≤ 1 :=
  rate_limiter_window_bound 1 (fun j => 2 * (j : ℚ)) (fun _ => 0) le_rfl
    (fun _ => le_rfl)
    (fun j => by
      rw [show rlComp 1 (fun j => 2 * (j : ℚ)) (fun _ => 0) j = 2 * (j : ℚ) from by
        unfold rlComp; rw [rlTrace_witness_eval]]
      push_cast
      linarith) 5 3

end Emulator

namespace Emulator

/-!
Executable SHA-256 (FIPS 180-4) and HMAC (RFC 2104) over byte lists (bytes as
`ℕ`), used to state what `register_device` and `send_gps_update` sign.  All
word arithmetic is `% 4294967296`; `strBytes` gives the UTF-8 bytes of the
ASCII strings the emulator signs (character code points, which coincide with
UTF-8 for the ASCII inputs in question).
-/

def rotr32 (n x : ℕ) : ℕ := ((x >>> n) ||| (x <<< (32 - n))) % 4294967296

def not32 (x : ℕ) : ℕ := x ^^^ 4294967295

def shaCh (x y z : ℕ) : ℕ := (x &&& y) ^^^ (not32 x &&& z)

def shaMaj (x y z : ℕ) : ℕ := (x &&& y) ^^^ (x &&& z) ^^^ (y &&& z)

def bigSigma0 (x : ℕ) : ℕ := rotr32 2 x ^^^ rotr32 13 x ^^^ rotr32 22 x

def bigSigma1 (x : ℕ) : ℕ := rotr32 6 x ^^^ rotr32 11 x ^^^ rotr32 25 x

def smallSigma0 (x : ℕ) : ℕ := rotr32 7 x ^^^ rotr32 18 x ^^^ (x >>> 3)

def smallSigma1 (x : ℕ) : ℕ := rotr32 17 x ^^^ rotr32 19 x ^^^ (x >>> 10)

def shaK : List ℕ :=
  [1116352408, 1899447441, 3049323471, 3921009573, 961987163,
   1508970993, 2453635748, 2870763221, 3624381080, 310598401,
   607225278, 1426881987, 1925078388, 2162078206, 2614888103,
   3248222580, 3835390401, 4022224774, 264347078, 604807628,
   770255983, 1249150122, 1555081692, 1996064986, 2554220882,
   2821834349, 2952996808, 3210313671, 3336571891, 3584528711,
   113926993, 338241895, 666307205, 773529912, 1294757372,
   1396182291, 1695183700, 1986661051, 2177026350, 2456956037,
   2730485921, 2820302411, 3259730800, 3345764771, 3516065817,
   3600352804, 4094571909, 275423344, 430227734, 506948616,
   659060556, 883997877, 958139571, 1322822218, 1537002063,
   1747873779, 1955562222, 2024104815, 2227730452, 2361852424,
   2428436474, 2756734187, 3204031479, 3329325298]

def shaH0 : List ℕ :=
  [1779033703, 3144134277, 1013904242, 2773480762,
   1359893119, 2600822924, 528734635, 1541459225]

def shaPad (msg : List ℕ) : List ℕ :=
  let len := msg.length
  let bitLen := 8 * len
  let padZeros := (55 + 64 - len % 64) % 64
  msg ++ [0x80] ++ List.replicate padZeros 0 ++
    [(bitLen >>> 56) % 256, (bitLen >>> 48) % 256, (bitLen >>> 40) % 256,
     (bitLen >>> 32) % 256, (bitLen >>> 24) % 256, (bitLen >>> 16) % 256,
     (bitLen >>> 8) % 256, bitLen % 256]

def toWords : List ℕ → List ℕ
  | b0 :: b1 :: b2 :: b3 :: rest =>
    ((b0 <<< 24) ||| (b1 <<< 16) ||| (b2 <<< 8) ||| b3) :: toWords rest
  | _ => []

def toBlocks : List ℕ → List (List ℕ)
  | w0 :: w1 :: w2 :: w3 :: w4 :: w5 :: w6 :: w7 ::
    w8 :: w9 :: w10 :: w11 :: w12 :: w13 :: w14 :: w15 :: rest =>
    [w0, w1, w2, w3, w4, w5, w6, w7, w8, w9, w10, w11, w12, w13, w14, w15] ::
      toBlocks rest
  | _ => []

def extendW : List ℕ → ℕ → List ℕ
  | w, 0 => w
  | w, k + 1 =>
    let n := w.length
    extendW (w ++ [(smallSigma1 (w.getD (n - 2) 0) + w.getD (n - 7) 0 +
      smallSigma0 (w.getD (n - 15) 0) + w.getD (n - 16) 0) % 4294967296]) k

def shaRound (hs : List ℕ) (kw : ℕ) : List ℕ :=
  let a := hs.getD 0 0
  let b := hs.getD 1 0
  let c := hs.getD 2 0
  let d := hs.getD 3 0
  let e := hs.getD 4 0
  let f := hs.getD 5 0
  let g := hs.getD 6 0
  let h := hs.getD 7 0
  let t1 := (h + bigSigma1 e + shaCh e f g + kw) % 4294967296
  let t2 := (bigSigma0 a + shaMaj a b c) % 4294967296
  [(t1 + t2) % 4294967296, a, b, c, (d + t1) % 4294967296, e, f, g]

def shaRounds : List ℕ → List ℕ → List ℕ
  | [], hs => hs
  | kw :: kws, hs => shaRounds kws (shaRound hs kw)

def shaCompressBlock (hs block : List ℕ) : List ℕ :=
  let w := extendW block 48
  let kws := List.zipWith (fun k wt => (k + wt) % 4294967296) shaK w
  let hs' := shaRounds kws hs
  List.zipWith (fun x y => (x + y) % 4294967296) hs hs'

def sha256 (msg : List ℕ) : List ℕ :=
  let hs := (toBlocks (toWords (shaPad msg))).foldl shaCompressBlock shaH0
  hs.foldr (fun w acc =>
    (w >>> 24) % 256 :: (w >>> 16) % 256 :: (w >>> 8) % 256 :: w % 256 :: acc) []

def hmacSha256 (key msg : List ℕ) : List ℕ :=
  let key1 := if 64 < key.length then sha256 key else key
  let keyPad := key1 ++ List.replicate (64 - key1.length) 0
  let ipad := keyPad.map (fun b => b ^^^ 0x36)
  let opad := keyPad.map (fun b => b ^^^ 0x5c)
  sha256 (opad ++ sha256 (ipad ++ msg))

def hexDigit (n : ℕ) : Char :=
  if n < 10 then Char.ofNat (48 + n) else Char.ofNat (87 + n)

def bytesToHex (bs : List ℕ) : String :=
  String.mk (bs.foldr (fun b acc => hexDigit (b / 16 % 16) :: hexDigit (b % 16) :: acc) [])

def strBytes (s : String) : List ℕ := s.data.map (fun c => c.toNat)

/-- The registration-token construction of `register_device` (lines 258-264):
the hex digest of HMAC-SHA256 keyed by the manufacturer secret over
`f"{MANUFACTURER}:{device_id}:{device_secret}"`. -/
def registrationToken (manufacturer deviceId deviceSecret manufacturerSecret :
    String) : String :=
  bytesToHex (hmacSha256 (strBytes manufacturerSecret)
    (strBytes (manufacturer ++ ":" ++ deviceId ++ ":" ++ deviceSecret)))

set_option maxRecDepth 100000 in
/-- C8: the registration token is the hex-encoded HMAC-SHA256, keyed by the
manufacturer secret, of the colon-joined string
`manufacturer:device_id:device_secret`; at manufacturer "MFG", device id "X",
device secret "D" and manufacturer secret "S" it equals the value of an
independent HMAC-SHA256 computation of "MFG:X:D" keyed by "S"
(`c57e320e…`, reproduced with OpenSSL). -/
theorem registration_token_is_hmac :
    (∀ mfg devId devSecret mfgSecret : String,
      registrationToken mfg devId devSecret mfgSecret =
        bytesToHex (hmacSha256 (strBytes mfgSecret)
          (strBytes (mfg ++ ":" ++ devId ++ ":" ++ devSecret)))) ∧
    registrationToken "MFG" "X" "D" "S" =
      "c57e320e1c5287ea052a2c9990f51d094d29eea275aec1ba1ac6c7efcc2e30ec" :=
  ⟨fun _ _ _ _ => rfl, by decide⟩

end Emulator

namespace Emulator

/-- The telemetry payload assembled by `send_gps_update` (lines 415-432), with
each leaf carried as its rendered JSON atom: numeric fields as the decimal
text Python's float/int rendering produces (digits, '.', '-', 'e', '+'),
string fields as their verbatim (escape-free printable-ASCII) content.
Field names are the JSON keys; flight_time, phase, pilot and vario sit in the
nested device_metadata object. -/
structure GpsData where
  accuracy : List Char
  altitude : List Char
  battery_level : List Char
  device_id : List Char
  flight_time : List Char
  heading : List Char
  latitude : List Char
  longitude : List Char
  phase : List Char
  pilot : List Char
  satellites : List Char
  speed : List Char
  timestamp : List Char
  vario : List Char
  deriving DecidableEq

def canonicalJson (d : GpsData) : List Char :=
  "\x7b\"accuracy\":".data ++ (d.accuracy ++ (',' ::
  ("\"altitude\":".data ++ (d.altitude ++ (',' ::
  ("\"battery_level\":".data ++ (d.battery_level ++ (',' ::
  ("\"device_id\":\"".data ++ (d.device_id ++ ('\"' ::
  (",\"device_metadata\":\x7b\"flight_time\":".data ++ (d.flight_time ++ (',' ::
  ("\"phase\":\"".data ++ (d.phase ++ ('\"' ::
  (",\"pilot\":\"".data ++ (d.pilot ++ ('\"' ::
  (",\"vario\":".data ++ (d.vario ++ ('}' ::
  (",\"heading\":".data ++ (d.heading ++ (',' ::
  ("\"latitude\":".data ++ (d.latitude ++ (',' ::
  ("\"longitude\":".data ++ (d.longitude ++ (',' ::
  ("\"satellites\":".data ++ (d.satellites ++ (',' ::
  ("\"speed\":".data ++ (d.speed ++ (',' ::
  ("\"timestamp\":\"".data ++ (d.timestamp ++ ('\"' ::
  ['}'])))))))))))))))))))))))))))))))))))))))))

def gpsA : GpsData where
  accuracy := "5.2".data
  altitude := "2400.0".data
  battery_level := "95.0".data
  device_id := "EMU-PARA-20250101-12345-0007".data
  flight_time := "3".data
  heading := "90.0".data
  latitude := "45.9237".data
  longitude := "6.8694".data
  phase := "ground".data
  pilot := "Pilot_0007".data
  satellites := "12".data
  speed := "0.0".data
  timestamp := "2025-01-01T10:00:00+00:00".data
  vario := "0.0".data
/-- `json.dumps(gps_data, sort_keys=True, separators=(',', ':'))` (line 435):
keys in sorted order, no whitespace — checked verbatim against CPython's
output on a sample payload. -/
def isNumChar (c : Char) : Bool :=
  c.isDigit || c = '.' || c = '-' || c = 'e' || c = '+'

def isStrChar (c : Char) : Bool :=
  32 ≤ c.toNat && c.toNat ≤ 126 && c ≠ '\"' && c ≠ '\\'

def WFGps (d : GpsData) : Prop :=
  d.accuracy.all isNumChar = true ∧ d.altitude.all isNumChar = true ∧
  d.battery_level.all isNumChar = true ∧ d.device_id.all isStrChar = true ∧
  d.flight_time.all isNumChar = true ∧ d.heading.all isNumChar = true ∧
  d.latitude.all isNumChar = true ∧ d.longitude.all isNumChar = true ∧
  d.phase.all isStrChar = true ∧ d.pilot.all isStrChar = true ∧
  d.satellites.all isNumChar = true ∧ d.speed.all isNumChar = true ∧
  d.timestamp.all isStrChar = true ∧ d.vario.all isNumChar = true

instance (d : GpsData) : Decidable (WFGps d) := by
  unfold WFGps
  exact inferInstance

lemma append_sep_inj {c : Char} {s₁ s₂ t₁ t₂ : List Char}
    (h₁ : ∀ x ∈ s₁, x ≠ c) (h₂ : ∀ x ∈ s₂, x ≠ c)
    (h : s₁ ++ c :: t₁ = s₂ ++ c :: t₂) : s₁ = s₂ ∧ t₁ = t₂ := by
  induction s₁ generalizing s₂ with
  | nil =>
    cases s₂ with
    | nil => simpa using h
    | cons y ys =>
      simp only [List.nil_append, List.cons_append, List.cons.injEq] at h
      exact absurd h.1.symm (h₂ y (by simp))
  | cons x xs ih =>
    cases s₂ with
    | nil =>
      simp only [List.nil_append, List.cons_append, List.cons.injEq] at h
      exact absurd h.1 (h₁ x (by simp))
    | cons y ys =>
      simp only [List.cons_append, List.cons.injEq] at h
      obtain ⟨hxy, htail⟩ := h
      obtain ⟨hs, ht⟩ := ih (fun z hz => h₁ z (by simp [hz]))
        (fun z hz => h₂ z (by simp [hz])) htail
      exact ⟨by rw [hxy, hs], ht⟩

lemma num_sep {l : List Char} (h : l.all isNumChar = true) {c : Char}
    (hc : isNumChar c = false) : ∀ x ∈ l, x ≠ c := by
  intro x hx heq
  have hx2 := List.all_eq_true.mp h x hx
  rw [heq, hc] at hx2
  cases hx2

lemma str_sep {l : List Char} (h : l.all isStrChar = true) {c : Char}
    (hc : isStrChar c = false) : ∀ x ∈ l, x ≠ c := by
  intro x hx heq
  have hx2 := List.all_eq_true.mp h x hx
  rw [heq, hc] at hx2
  cases hx2

theorem canonicalJson_inj (d₁ d₂ : GpsData) (hw₁ : WFGps d₁) (hw₂ : WFGps d₂)
    (h : canonicalJson d₁ = canonicalJson d₂) : d₁ = d₂ := by
  obtain ⟨h1a, h1b, h1c, h1d, h1e, h1f, h1g, h1h, h1i, h1j, h1k, h1l, h1m, h1n⟩ := hw₁
  obtain ⟨h2a, h2b, h2c, h2d, h2e, h2f, h2g, h2h, h2i, h2j, h2k, h2l, h2m, h2n⟩ := hw₂
  unfold canonicalJson at h
  have h := List.append_cancel_left h
  obtain ⟨e1, h⟩ := append_sep_inj (num_sep h1a (by decide)) (num_sep h2a (by decide)) h
  have h := List.append_cancel_left h
  obtain ⟨e2, h⟩ := append_sep_inj (num_sep h1b (by decide)) (num_sep h2b (by decide)) h
  have h := List.append_cancel_left h
  obtain ⟨e3, h⟩ := append_sep_inj (num_sep h1c (by decide)) (num_sep h2c (by decide)) h
  have h := List.append_cancel_left h
  obtain ⟨e4, h⟩ := append_sep_inj (str_sep h1d (by decide)) (str_sep h2d (by decide)) h
  have h := List.append_cancel_left h
  obtain ⟨e5, h⟩ := append_sep_inj (num_sep h1e (by decide)) (num_sep h2e (by decide)) h
  have h := List.append_cancel_left h
  obtain ⟨e6, h⟩ := append_sep_inj (str_sep h1i (by decide)) (str_sep h2i (by decide)) h
  have h := List.append_cancel_left h
  obtain ⟨e7, h⟩ := append_sep_inj (str_sep h1j (by decide)) (str_sep h2j (by decide)) h
  have h := List.append_cancel_left h
  obtain ⟨e8, h⟩ := append_sep_inj (num_sep h1n (by decide)) (num_sep h2n (by decide)) h
  have h := List.append_cancel_left h
  obtain ⟨e9, h⟩ := append_sep_inj (num_sep h1f (by decide)) (num_sep h2f (by decide)) h
  have h := List.append_cancel_left h
  obtain ⟨e10, h⟩ := append_sep_inj (num_sep h1g (by decide)) (num_sep h2g (by decide)) h
  have h := List.append_cancel_left h
  obtain ⟨e11, h⟩ := append_sep_inj (num_sep h1h (by decide)) (num_sep h2h (by decide)) h
  have h := List.append_cancel_left h
  obtain ⟨e12, h⟩ := append_sep_inj (num_sep h1k (by decide)) (num_sep h2k (by decide)) h
  have h := List.append_cancel_left h
  obtain ⟨e13, h⟩ := append_sep_inj (num_sep h1l (by decide)) (num_sep h2l (by decide)) h
  have h := List.append_cancel_left h
  obtain ⟨e14, h⟩ := append_sep_inj (str_sep h1m (by decide)) (str_sep h2m (by decide)) h
  cases d₁
  cases d₂
  simp only [GpsData.mk.injEq]
  exact ⟨e1, e2, e3, e4, e5, e9, e10, e11, e6, e7, e12, e13, e14, e8⟩
/-- The signature of `send_gps_update` (lines 436-440): hex HMAC-SHA256 over
the canonical bytes, keyed by the device secret. -/
def sendSignature (deviceSecret : String) (d : GpsData) : String :=
  bytesToHex (hmacSha256 (strBytes deviceSecret) ((canonicalJson d).map Char.toNat))

/-- C9: the canonical serialization and hence the signature computed by
`send_gps_update` are pure functions of the payload and the device secret
(identical across any two computations), and on well-formed payloads the
canonical serialization is injective: any change to a data field changes the
canonical bytes that are signed. -/
theorem canonical_signature_pure_and_injective :
    (∀ (secret : String) (d : GpsData),
      sendSignature secret d =
        bytesToHex (hmacSha256 (strBytes secret) ((canonicalJson d).map Char.toNat))) ∧
    (∀ d₁ d₂ : GpsData, WFGps d₁ → WFGps d₂ →
      canonicalJson d₁ = canonicalJson d₂ → d₁ = d₂) :=
  ⟨fun _ _ => rfl, canonicalJson_inj⟩

/-- The `gpsA` payload with only the battery level changed. -/
def gpsB : GpsData := { gpsA with battery_level := "4.9".data }

/-- Witness for C9: changing one field (battery level) of a concrete payload
changes the canonical bytes. -/
theorem canonical_signature_pure_and_injective_witness :
    canonicalJson gpsA ≠ canonicalJson gpsB := fun h =>
  absurd (canonical_signature_pure_and_injective.2 gpsA gpsB (by decide) (by decide) h)
    (by decide)

end Emulator
